import Mathlib

/-!
Verification of the Student Feedback Analyzer (`src/main.py`).

The program is a Streamlit app: a submission form writing feedback records to
a MySQL table, and a dashboard that aggregates ratings and calls a remote
generative model for sentiment classification and summarization.

Shallow embedding conventions:
* External library effects are explicit parameters or modelled values:
  - the remote model call `client.models.generate_content(...)` is modelled by
    passing the response text `respText` as an argument; every function that
    would perform the call additionally returns a `Bool` recording whether the
    call happened (the early-return paths of the source return `false`);
  - `json.loads` is modelled by an abstract `parse : String â†’ Option JValue`
    parameter (`none` models a raised exception, caught by the source's
    `except` clause);
  - the MySQL table is modelled by a `List FeedbackRecord`; the parameterized
    `INSERT` of `insert_feedback` appends one row;
  - `st.slider(label, 1, 5, 4)` is a bounded widget: it can only yield a value
    within `[min, max]`; it is modelled by clamping the user's choice.
* Python truthiness tests `not subject` / `not comments` on strings are
  emptiness tests; `not comments` on a list is an emptiness test.
* The regex `re.search(r'(\{.*\}|\[.*\])', text, re.S)` is embedded by its
  exact semantics on this pattern: scan positions left to right; at the first
  position where an alternative matches, prefer the brace alternative; `.*` is
  greedy under `re.S`, so the match extends to the last corresponding closing
  delimiter in the remaining text.
-/

/-- A parsed JSON value, the result type of the modelled `json.loads`.
Numbers are restricted to integers, the only numerals this application
produces or inspects. -/
inductive JValue : Type where
  | null : JValue
  | bool : Bool → JValue
  | num : Int → JValue
  | str : String → JValue
  | arr : List JValue → JValue
  | obj : List (String × JValue) → JValue
deriving Repr

/-- From `main.py`, `takeThroughLast c l` keeps `l` up to and including the
last occurrence of `c`: the effect of the greedy `.*` before the closing
delimiter in `re.search(r'(\{.*\}|\[.*\])', text, re.S)`. -/
def takeThroughLast (c : Char) : List Char → List Char
  | [] => []
  | a :: rest =>
    if c ∈ rest then a :: takeThroughLast c rest
    else if a = c then [a] else []

/-- From `main.py` line 77: the search part of
`re.search(r'(\{.*\}|\[.*\])', text, re.S)`. Scans positions left to right;
at each position the brace alternative is tried before the bracket
alternative; an alternative matches when its opening delimiter is at the
current position and its closing delimiter occurs later; the greedy `.*`
extends the match to the last such closing delimiter. Returns `none` when the
regex finds no match. -/
def extract_json_core : List Char → Option (List Char)
  | [] => none
  | a :: rest =>
    if a = '{' ∧ '}' ∈ rest then some ('{' :: takeThroughLast '}' rest)
    else if a = '[' ∧ ']' ∈ rest then some ('[' :: takeThroughLast ']' rest)
    else extract_json_core rest

/-- From `main.py` lines 75-80 (`extract_json`): return the first
brace/bracket-delimited span found by the regex, or the whole text when there
is no match. -/
def extract_json (text : String) : String :=
  match extract_json_core text.data with
  | some m => String.mk m
  | none => text

/-- From `main.py` lines 89-94: the fixed instruction header of the
classification prompt. -/
def promptHeader : String :=
  "Classify sentiment for each student feedback. Return ONLY a JSON array of objects with keys: id (1-based) and sentiment. Sentiment must be one of: Positive, Negative, Neutral. DO NOT include any extra text.\n\nComments:\n"

/-- From `main.py` lines 95-97: the loop
`for i, c in enumerate(comments, start=1): prompt += f"{i}. {c}\n"`,
with `acc` the prompt built so far and `i` the next 1-based index. -/
def buildPromptLoop (acc : String) (i : Nat) : List String → String
  | [] => acc
  | c :: cs => buildPromptLoop (acc ++ toString i ++ ". " ++ c ++ "\n") (i + 1) cs

/-- From `main.py` lines 89-97: the full classification prompt. -/
def buildPrompt (comments : List String) : String :=
  buildPromptLoop promptHeader 1 comments

/-- From `main.py` lines 85-117 (`classify_sentiments_bulk`).
`parse` models `json.loads` (`none` = exception), `respText` models
`resp.text` from the remote call. The second component records whether the
remote model was called: the empty-input early return at lines 86-87 happens
before the call. -/
def classify_sentiments_bulk (parse : String → Option JValue)
    (comments : List String) (respText : String) : JValue × Bool :=
  if comments = [] then (JValue.arr [], false)
  else
    let json_text := extract_json respText
    match parse json_text with
    | some parsed => (parsed, true)
    | none =>
      (JValue.arr ((List.range comments.length).map fun i =>
        JValue.obj [("id", JValue.num (Int.ofNat i + 1)),
                    ("sentiment", JValue.str "Neutral")]), true)

/-- From `main.py` lines 122-138 (`summarize_feedback`). `respText` models
`resp.text`; the second component records whether the remote model was
called: the empty-input early return at lines 123-124 happens before the
call. The non-empty branch returns `resp.text.strip()`. -/
def summarize_feedback (comments : List String) (respText : String) :
    String × Bool :=
  if comments = [] then ("No comments to summarize.", false)
  else (respText.trim, true)

/-- One feedback row of the `feedback` table, restricted to the four columns
the application writes (`id` and `date_submitted` are storage-assigned). -/
structure FeedbackRecord : Type where
  student_name : String
  subject : String
  rating : Int
  comments : String
deriving Repr, DecidableEq

/-- From `main.py` lines 58-64 (`insert_feedback`): the parameterized
`INSERT INTO feedback (student_name, subject, rating, comments)` appends one
row to the table. -/
def insert_feedback (db : List FeedbackRecord) (student_name subject : String)
    (rating : Int) (comments : String) : List FeedbackRecord :=
  db ++ [⟨student_name, subject, rating, comments⟩]

/-- Model of the external widget `st.slider(label, lo, hi, dflt)` at
`main.py` line 152: the widget only ever yields a value within `[lo, hi]`
(the default `dflt` is its initial position); the user's choice is clamped to
the bounds. -/
def st_slider (lo hi _dflt choice : Int) : Int :=
  if choice < lo then lo else if choice > hi then hi else choice

/-- Outcome of the Submit button handler: `st.error ...` or `st.success ...`. -/
inductive SubmitResult : Type where
  | success : SubmitResult
  | error : String → SubmitResult
deriving Repr, DecidableEq

/-- From `main.py` lines 148-160: the Submit Feedback page. `ratingChoice` is
the slider position chosen by the user; `rating = st.slider(..., 1, 5, 4)`.
The handler rejects when `not subject or not comments` (emptiness on
strings), otherwise calls `insert_feedback(name, subject, rating, comments)`.
Returns the displayed outcome and the resulting table. -/
def submit_page (db : List FeedbackRecord) (name subject : String)
    (ratingChoice : Int) (comments : String) :
    SubmitResult × List FeedbackRecord :=
  let rating := st_slider 1 5 4 ratingChoice
  if subject = "" ∨ comments = "" then
    (SubmitResult.error "Please fill subject and comments.", db)
  else
    (SubmitResult.success, insert_feedback db name subject rating comments)

/-- One user interaction with the Submit Feedback page. -/
structure SubmitInput : Type where
  name : String
  subject : String
  ratingChoice : Int
  comments : String

/-- A sequence of Submit Feedback interactions run against the store:
every write to the `feedback` table goes through `submit_page` (the only
write path in `main.py`). -/
def run_submissions (inputs : List SubmitInput) (db : List FeedbackRecord) :
    List FeedbackRecord :=
  inputs.foldl
    (fun d inp => (submit_page d inp.name inp.subject inp.ratingChoice inp.comments).2)
    db

/-- From `main.py` line 172: the per-subject aggregation
`df.groupby("subject")["rating"].mean()`, evaluated at one subject: the
arithmetic mean (as an exact rational) of the ratings of the rows with that
subject. -/
def avg_rating (db : List FeedbackRecord) (subject : String) : ℚ :=
  let rs : List Int := (db.filter fun r => r.subject == subject).map fun r => r.rating
  (rs.sum : ℚ) / (rs.length : ℚ)

/-- What a dashboard section displays: a plain message, or a rendering of the
classification labels (the counts bar at lines 202-206 is a pure display of
these labels). -/
inductive SectionOut : Type where
  | text : String → SectionOut
  | rendered : JValue → SectionOut
deriving Repr

/-- From `main.py` lines 196-208: the Sentiment Analysis section of the
dashboard for the selected subject's comment list. The second component
records whether the remote model was called. -/
def sentiment_section (parse : String → Option JValue)
    (comments_list : List String) (respText : String) : SectionOut × Bool :=
  if comments_list = [] then (SectionOut.text "No comments to analyze.", false)
  else
    let r := classify_sentiments_bulk parse comments_list respText
    (SectionOut.rendered r.1, r.2)

/-- From `main.py` lines 210-217: the AI Summary section of the dashboard.
The second component records whether the remote model was called. -/
def summary_section (comments_list : List String) (respText : String) :
    SectionOut × Bool :=
  if comments_list = [] then (SectionOut.text "No comments to summarize.", false)
  else
    let s := summarize_feedback comments_list respText
    (SectionOut.text s.1, s.2)

/-- The regex `(\{.*\}|\[.*\])` matches at the head of this suffix: the head
is an opening delimiter whose closing delimiter occurs later. -/
def regexMatchHead : List Char → Prop
  | [] => False
  | a :: rest => (a = '{' ∧ '}' ∈ rest) ∨ (a = '[' ∧ ']' ∈ rest)

instance (l : List Char) : Decidable (regexMatchHead l) :=
  match l with
  | [] => isFalse fun h => h
  | _ :: _ => inferInstanceAs (Decidable (_ ∨ _))

/-- A brace/bracket-delimited span of the text starts at position `i`. -/
def spanAt (cs : List Char) (i : Nat) : Prop :=
  regexMatchHead (cs.drop i)

instance (cs : List Char) (i : Nat) : Decidable (spanAt cs i) :=
  inferInstanceAs (Decidable (regexMatchHead _))

/-! ### Helper lemmas about the regex model -/

lemma getLast?_cons_of_getLast? {α : Type} (a x : α) (l : List α)
    (h : l.getLast? = some x) : (a :: l).getLast? = some x := by
  cases l with
  | nil => simp at h
  | cons b bs => rw [List.getLast?_cons_cons]; exact h

lemma takeThroughLast_eq_append (c : Char) :
    ∀ l : List Char, c ∈ l → ∃ t, l = takeThroughLast c l ++ t := by
  intro l
  induction l with
  | nil => intro h; cases h
  | cons a rest ih =>
    intro h
    by_cases hc : c ∈ rest
    · obtain ⟨t, ht⟩ := ih hc
      refine ⟨t, ?_⟩
      simp only [takeThroughLast, if_pos hc, List.cons_append]
      exact congrArg (a :: ·) ht
    · have hac : a = c := by
        rcases List.mem_cons.mp h with h1 | h1
        · exact h1.symm
        · exact absurd h1 hc
      refine ⟨rest, ?_⟩
      simp [takeThroughLast, hc, hac]

lemma takeThroughLast_getLast (c : Char) :
    ∀ l : List Char, c ∈ l → (takeThroughLast c l).getLast? = some c := by
  intro l
  induction l with
  | nil => intro h; cases h
  | cons a rest ih =>
    intro h
    by_cases hc : c ∈ rest
    · rw [show takeThroughLast c (a :: rest) = a :: takeThroughLast c rest from by
        simp [takeThroughLast, hc]]
      exact getLast?_cons_of_getLast? a c _ (ih hc)
    · have hac : a = c := by
        rcases List.mem_cons.mp h with h1 | h1
        · exact h1.symm
        · exact absurd h1 hc
      rw [show takeThroughLast c (a :: rest) = [a] from by simp [takeThroughLast, hc, hac]]
      simp [hac]

lemma extract_core_none :
    ∀ cs : List Char, extract_json_core cs = none → ∀ i, ¬ spanAt cs i := by
  intro cs
  induction cs with
  | nil =>
    intro _ i hi
    simp [spanAt, List.drop_nil, regexMatchHead] at hi
  | cons a rest ih =>
    intro h i
    simp only [extract_json_core] at h
    split_ifs at h with h1 h2
    cases i with
    | zero =>
      intro hi
      have hor : (a = '{' ∧ '}' ∈ rest) ∨ (a = '[' ∧ ']' ∈ rest) := hi
      rcases hor with hb | hb
      · exact h1 hb
      · exact h2 hb
    | succ j =>
      intro hi
      exact ih h j hi

lemma spanAt_lt_length {cs : List Char} {i : Nat} (h : spanAt cs i) :
    i < cs.length := by
  by_contra hge
  push_neg at hge
  have hd : cs.drop i = [] := List.drop_eq_nil_of_le hge
  have hrm : regexMatchHead (cs.drop i) := h
  rw [hd] at hrm
  exact hrm

lemma extract_core_some :
    ∀ cs m : List Char, extract_json_core cs = some m →
    ∃ i, spanAt cs i ∧ (∀ j, j < i → ¬ spanAt cs j) ∧
      m = (cs.drop i).take m.length ∧
      ((m.head? = some '{' ∧ m.getLast? = some '}') ∨
       (m.head? = some '[' ∧ m.getLast? = some ']')) := by
  intro cs
  induction cs with
  | nil => intro m h; cases h
  | cons a rest ih =>
    intro m h
    simp only [extract_json_core] at h
    split_ifs at h with h1 h2
    · have hm : m = '{' :: takeThroughLast '}' rest := (Option.some.inj h).symm
      obtain ⟨t, ht⟩ := takeThroughLast_eq_append '}' rest h1.2
      refine ⟨0, Or.inl h1, fun j hj => absurd hj (Nat.not_lt_zero j), ?_, ?_⟩
      · rw [hm, h1.1]
        simp only [List.length_cons, List.drop_zero, List.take_succ_cons]
        have hlt := List.take_left (takeThroughLast '}' rest) t
        rw [← ht] at hlt
        rw [hlt]
      · refine Or.inl ⟨by rw [hm]; rfl, ?_⟩
        rw [hm]
        exact getLast?_cons_of_getLast? _ _ _ (takeThroughLast_getLast '}' rest h1.2)
    · have hm : m = '[' :: takeThroughLast ']' rest := (Option.some.inj h).symm
      obtain ⟨t, ht⟩ := takeThroughLast_eq_append ']' rest h2.2
      refine ⟨0, Or.inr h2, fun j hj => absurd hj (Nat.not_lt_zero j), ?_, ?_⟩
      · rw [hm, h2.1]
        simp only [List.length_cons, List.drop_zero, List.take_succ_cons]
        have hlt := List.take_left (takeThroughLast ']' rest) t
        rw [← ht] at hlt
        rw [hlt]
      · refine Or.inr ⟨by rw [hm]; rfl, ?_⟩
        rw [hm]
        exact getLast?_cons_of_getLast? _ _ _ (takeThroughLast_getLast ']' rest h2.2)
    · obtain ⟨i, hs, hmin, hm, hd⟩ := ih m h
      refine ⟨i + 1, hs, ?_, hm, hd⟩
      intro j hj
      cases j with
      | zero =>
        intro hs0
        have hor : (a = '{' ∧ '}' ∈ rest) ∨ (a = '[' ∧ ']' ∈ rest) := hs0
        rcases hor with hb | hb
        · exact h1 hb
        · exact h2 hb
      | succ j' =>
        intro hsj
        exact hmin j' (Nat.lt_of_succ_lt_succ hj) hsj

/-! ### Spec-side definitions (used to state claims) -/

/-- Spec-side: the enumerated comment lines of the prompt, "each comment on
its own line prefixed with its 1-based index in input order", starting at
index `i`. -/
def numberedLinesFrom (i : Nat) : List String → String
  | [] => ""
  | c :: cs => toString i ++ ". " ++ c ++ "\n" ++ numberedLinesFrom (i + 1) cs

/-- Spec-side: the `id` and `sentiment` fields of one response entry, when
the entry is an object carrying an integer `id` and a string `sentiment`. -/
def entryFields : JValue → Option (Int × String)
  | JValue.obj fields =>
    match fields.lookup "id", fields.lookup "sentiment" with
    | some (JValue.num i), some (JValue.str s) => some (i, s)
    | _, _ => none
  | _ => none

/-- Spec-side: the parsed response is a JSON array of exactly `n` entries,
each with a sentiment in \x7bPositive, Negative, Neutral\x7d and a distinct
1-based id, the ids covering `[1, n]`. -/
def wellFormedResp (n : Nat) (v : JValue) : Bool :=
  match v with
  | JValue.arr l =>
    match l.mapM entryFields with
    | some pairs =>
      (l.length == n) &&
      pairs.all (fun p =>
        p.2 == "Positive" || p.2 == "Negative" || p.2 == "Neutral") &&
      ((pairs.map Prod.fst).dedup.length == pairs.length) &&
      (List.range n).all (fun k => pairs.any (fun p => p.1 == Int.ofNat (k + 1)))
    | none => false
  | _ => false

/-- Concrete parse function for witnesses: every parse raises. -/
def parseNone : String → Option JValue := fun _ => none

/-- Concrete parse function agreeing with Python `json.loads` on the string
`"[]"` (the empty JSON array) and raising elsewhere. -/
def parseEmptyArr : String → Option JValue :=
  fun s => if s = "[]" then some (JValue.arr []) else none

/-- A well-formed one-entry model response text (literal braces written as
escapes). -/
def respPos : String :=
  "[\x7b\"id\": 1, \"sentiment\": \"Positive\"\x7d]"

/-- The JSON value `json.loads` yields on `respPos`. -/
def vPos : JValue :=
  JValue.arr [JValue.obj [("id", JValue.num 1), ("sentiment", JValue.str "Positive")]]

/-- Concrete parse function agreeing with Python `json.loads` on `respPos`
and raising elsewhere. -/
def parsePosOne : String → Option JValue :=
  fun s => if s = respPos then some vPos else none

/-! ### Claim theorems -/

/-- C1: for every non-empty list of N comments, if the extracted model
response text cannot be parsed as JSON, `classify_sentiments_bulk` returns
exactly N entries in order, the k-th entry being the object
`\x7bid: k, sentiment: "Neutral"\x7d` for k = 1..N (0-based position k holds
id k+1). -/
theorem c1_parse_failure_neutral_fallback (parse : String → Option JValue)
    (comments : List String) (respText : String)
    (hne : comments ≠ [])
    (hp : parse (extract_json respText) = none) :
    ∃ l : List JValue,
      (classify_sentiments_bulk parse comments respText).1 = JValue.arr l ∧
      l.length = comments.length ∧
      ∀ k, k < comments.length →
        l[k]? = some (JValue.obj [("id", JValue.num (Int.ofNat k + 1)),
                                  ("sentiment", JValue.str "Neutral")]) := by
  refine ⟨(List.range comments.length).map fun i =>
      JValue.obj [("id", JValue.num (Int.ofNat i + 1)),
                  ("sentiment", JValue.str "Neutral")], ?_, ?_, ?_⟩
  · simp [classify_sentiments_bulk, hne, hp]
  · simp
  · intro k hk
    simp [List.getElem?_map, List.getElem?_range, hk]

/-- Witness for C1 at a concrete input: two comments, unparseable response. -/
theorem c1_witness :
    ∃ l : List JValue,
      (classify_sentiments_bulk parseNone ["good", "bad"] "oops").1 = JValue.arr l ∧
      l.length = (["good", "bad"] : List String).length ∧
      ∀ k, k < (["good", "bad"] : List String).length →
        l[k]? = some (JValue.obj [("id", JValue.num (Int.ofNat k + 1)),
                                  ("sentiment", JValue.str "Neutral")]) :=
  c1_parse_failure_neutral_fallback parseNone ["good", "bad"] "oops"
    (by decide) rfl

/-- C3: when the selected subject's comment list is empty, no remote model
call is made: `classify_sentiments_bulk` returns the empty list,
`summarize_feedback` returns "No comments to summarize.", and the dashboard
sections display their nothing-to-analyze messages instead (the `Bool`
component records whether the model was called). -/
theorem c3_empty_input_short_circuits (parse : String → Option JValue)
    (resp1 resp2 : String) :
    classify_sentiments_bulk parse [] resp1 = (JValue.arr [], false) ∧
    summarize_feedback [] resp2 = ("No comments to summarize.", false) ∧
    sentiment_section parse [] resp1 = (SectionOut.text "No comments to analyze.", false) ∧
    summary_section [] resp2 = (SectionOut.text "No comments to summarize.", false) :=
  ⟨rfl, rfl, rfl, rfl⟩

/-- C4: a valid submission (non-blank subject and comments) succeeds and
appends exactly one record whose `student_name`, `subject`, `rating` and
`comments` fields equal the submitted values; all previously stored records
are left unchanged. -/
theorem c4_valid_submission_appends_one (db : List FeedbackRecord)
    (name subject : String) (ratingChoice : Int) (comments : String)
    (hs : subject ≠ "") (hc : comments ≠ "") :
    (submit_page db name subject ratingChoice comments).1 = SubmitResult.success ∧
    (submit_page db name subject ratingChoice comments).2.length = db.length + 1 ∧
    (submit_page db name subject ratingChoice comments).2.take db.length = db ∧
    (submit_page db name subject ratingChoice comments).2.getLast? =
      some ⟨name, subject, st_slider 1 5 4 ratingChoice, comments⟩ := by
  have hcond : ¬ (subject = "" ∨ comments = "") := by
    rintro (h | h)
    · exact hs h
    · exact hc h
  refine ⟨?_, ?_, ?_, ?_⟩
  · simp [submit_page, hcond]
  · simp [submit_page, hcond, insert_feedback]
  · simp only [submit_page, if_neg hcond, insert_feedback]
    exact List.take_left db _
  · simp [submit_page, hcond, insert_feedback]

/-- Witness for C4 at a concrete input. -/
theorem c4_witness :
    (submit_page [⟨"a", "Physics", 3, "ok"⟩] "bea" "English" 2 "nice").1 =
      SubmitResult.success ∧
    (submit_page [⟨"a", "Physics", 3, "ok"⟩] "bea" "English" 2 "nice").2.length =
      ([⟨"a", "Physics", 3, "ok"⟩] : List FeedbackRecord).length + 1 ∧
    (submit_page [⟨"a", "Physics", 3, "ok"⟩] "bea" "English" 2 "nice").2.take
      ([⟨"a", "Physics", 3, "ok"⟩] : List FeedbackRecord).length =
      [⟨"a", "Physics", 3, "ok"⟩] ∧
    (submit_page [⟨"a", "Physics", 3, "ok"⟩] "bea" "English" 2 "nice").2.getLast? =
      some ⟨"bea", "English", st_slider 1 5 4 2, "nice"⟩ :=
  c4_valid_submission_appends_one [⟨"a", "Physics", 3, "ok"⟩] "bea" "English" 2 "nice"
    (by decide) (by decide)

/-- C5: a submission is rejected with the inline error (and the store is left
unchanged) exactly when the subject or the comments field is blank; the
student name plays no role in acceptance. -/
theorem c5_rejected_iff_blank (db : List FeedbackRecord) (name subject : String)
    (ratingChoice : Int) (comments : String) :
    (((submit_page db name subject ratingChoice comments).1 =
        SubmitResult.error "Please fill subject and comments." ∧
      (submit_page db name subject ratingChoice comments).2 = db)
      ↔ (subject = "" ∨ comments = "")) ∧
    (submit_page db name subject ratingChoice comments).1 =
      (submit_page db "" subject ratingChoice comments).1 := by
  constructor
  · by_cases h : subject = "" ∨ comments = ""
    · simp [submit_page, h]
    · simp [submit_page, h]
  · by_cases h : subject = "" ∨ comments = ""
    · simp [submit_page, h]
    · simp [submit_page, h]

/-- C6: when the ratings stored under a subject are `[5, 3, 4]`, the
dashboard's per-subject mean for that subject is 4. -/
theorem c6_mean_of_5_3_4 (db : List FeedbackRecord) (subject : String)
    (h : ((db.filter fun r => r.subject == subject).map fun r => r.rating) =
      [5, 3, 4]) :
    avg_rating db subject = 4 := by
  simp only [avg_rating]
  rw [h]
  norm_num

/-- Witness for C6 at a concrete record set. -/
theorem c6_witness :
    avg_rating [⟨"a", "Physics", 5, "x"⟩, ⟨"b", "Physics", 3, "y"⟩,
                ⟨"c", "Physics", 4, "z"⟩] "Physics" = 4 :=
  c6_mean_of_5_3_4 _ "Physics" (by decide)

/-- C8: for every non-empty comment list the classification prompt is the
fixed instruction header followed by the comments, each on its own line
prefixed with its 1-based index in input order. -/
theorem c8_prompt_is_header_and_numbered_lines (comments : List String)
    (_hne : comments ≠ []) :
    buildPrompt comments = promptHeader ++ numberedLinesFrom 1 comments := by
  have key : ∀ (cs : List String) (acc : String) (i : Nat),
      buildPromptLoop acc i cs = acc ++ numberedLinesFrom i cs := by
    intro cs
    induction cs with
    | nil => intro acc i; simp [buildPromptLoop, numberedLinesFrom]
    | cons c cs ih =>
      intro acc i
      rw [buildPromptLoop, numberedLinesFrom, ih]
      simp [String.append_assoc]
  exact key comments promptHeader 1

/-- Witness for C8 at a concrete comment list. -/
theorem c8_witness :
    buildPrompt ["ok"] = promptHeader ++ numberedLinesFrom 1 ["ok"] :=
  c8_prompt_is_header_and_numbered_lines ["ok"] (by decide)

/-- C7: whenever the regex finds a match, `extract_json` returns the first
brace/bracket-delimited span found in the text: a contiguous span of the
text, starting at the earliest position where any brace/bracket-delimited
span starts, opening with `\x7b` (or `[`) and closing with `\x7d` (or `]`);
and that span is exactly the string `classify_sentiments_bulk` hands to the
JSON parser, the Neutral fallback engaging only when parsing it fails. -/
theorem c7_extract_json_first_span (s : String)
    (hmatch : ∃ i, spanAt s.data i) :
    ∃ i, spanAt s.data i ∧ (∀ j, j < i → ¬ spanAt s.data j) ∧
      ∃ m : List Char,
        extract_json s = String.mk m ∧
        m = (s.data.drop i).take m.length ∧
        ((m.head? = some '{' ∧ m.getLast? = some '}') ∨
         (m.head? = some '[' ∧ m.getLast? = some ']')) ∧
        ∀ (parse : String → Option JValue) (comments : List String),
          comments ≠ [] →
          (classify_sentiments_bulk parse comments s).1 =
            (match parse (String.mk m) with
             | some parsed => parsed
             | none =>
               JValue.arr ((List.range comments.length).map fun k =>
                 JValue.obj [("id", JValue.num (Int.ofNat k + 1)),
                             ("sentiment", JValue.str "Neutral")])) := by
  cases hcore : extract_json_core s.data with
  | none =>
    obtain ⟨i, hi⟩ := hmatch
    exact absurd hi (extract_core_none s.data hcore i)
  | some m =>
    obtain ⟨i, hs, hmin, hm, hd⟩ := extract_core_some s.data m hcore
    have hext : extract_json s = String.mk m := by
      simp [extract_json, hcore]
    refine ⟨i, hs, hmin, m, hext, hm, hd, ?_⟩
    intro parse comments hne
    cases hp : parse (String.mk m) with
    | some v => simp [classify_sentiments_bulk, hne, hext, hp]
    | none => simp [classify_sentiments_bulk, hne, hext, hp]

/-- Witness for C7 at the concrete response text `"ab\x7bc\x7dd"`, whose
first (and only) span starts at position 2. -/
theorem c7_witness :
    ∃ i, spanAt (String.data "ab\x7bc\x7dd") i ∧
      (∀ j, j < i → ¬ spanAt (String.data "ab\x7bc\x7dd") j) ∧
      ∃ m : List Char,
        extract_json "ab\x7bc\x7dd" = String.mk m ∧
        m = ((String.data "ab\x7bc\x7dd").drop i).take m.length ∧
        ((m.head? = some '{' ∧ m.getLast? = some '}') ∨
         (m.head? = some '[' ∧ m.getLast? = some ']')) ∧
        ∀ (parse : String → Option JValue) (comments : List String),
          comments ≠ [] →
          (classify_sentiments_bulk parse comments "ab\x7bc\x7dd").1 =
            (match parse (String.mk m) with
             | some parsed => parsed
             | none =>
               JValue.arr ((List.range comments.length).map fun k =>
                 JValue.obj [("id", JValue.num (Int.ofNat k + 1)),
                             ("sentiment", JValue.str "Neutral")])) :=
  c7_extract_json_first_span "ab\x7bc\x7dd" ⟨2, by decide⟩

/-- C10: when the regex finds no brace/bracket-delimited span anywhere in
the response text, `extract_json` returns the text unchanged (it is a total
function: no exception, no `None`), JSON parsing is then attempted on the
raw text, and the Neutral fallback engages exactly when that parse fails. -/
theorem c10_no_match_returns_text (s : String)
    (h : ∀ i, i < s.data.length → ¬ spanAt s.data i) :
    extract_json s = s ∧
    ∀ (parse : String → Option JValue) (comments : List String),
      comments ≠ [] →
      ((∀ v, parse s = some v →
          (classify_sentiments_bulk parse comments s).1 = v) ∧
       (parse s = none →
          (classify_sentiments_bulk parse comments s).1 =
            JValue.arr ((List.range comments.length).map fun k =>
              JValue.obj [("id", JValue.num (Int.ofNat k + 1)),
                          ("sentiment", JValue.str "Neutral")]))) := by
  have hall : ∀ i, ¬ spanAt s.data i := by
    intro i
    by_cases hi : i < s.data.length
    · exact h i hi
    · intro hsp
      exact hi (spanAt_lt_length hsp)
  have hcore : extract_json_core s.data = none := by
    cases hcore : extract_json_core s.data with
    | none => rfl
    | some m =>
      obtain ⟨i, hs, -, -, -⟩ := extract_core_some s.data m hcore
      exact absurd hs (hall i)
  have hid : extract_json s = s := by
    simp [extract_json, hcore]
  refine ⟨hid, ?_⟩
  intro parse comments hne
  constructor
  · intro v hv
    simp [classify_sentiments_bulk, hne, hid, hv]
  · intro hv
    simp [classify_sentiments_bulk, hne, hid, hv]

/-- Witness for C10 at the concrete span-free response text `"hello"`. -/
theorem c10_witness :
    extract_json "hello" = "hello" ∧
    ∀ (parse : String → Option JValue) (comments : List String),
      comments ≠ [] →
      ((∀ v, parse "hello" = some v →
          (classify_sentiments_bulk parse comments "hello").1 = v) ∧
       (parse "hello" = none →
          (classify_sentiments_bulk parse comments "hello").1 =
            JValue.arr ((List.range comments.length).map fun k =>
              JValue.obj [("id", JValue.num (Int.ofNat k + 1)),
                          ("sentiment", JValue.str "Neutral")]))) :=
  c10_no_match_returns_text "hello" (by decide)

/-- C2 counterexample: one comment, and the model response `"[]"` parses
successfully as JSON (as Python `json.loads` would), yet
`classify_sentiments_bulk` does not return exactly N = 1 labeled entries: it
returns the parsed empty array unvalidated. -/
theorem c2_counterexample :
    (["good"] : List String).length = 1 ∧
    parseEmptyArr (extract_json "[]") = some (JValue.arr []) ∧
    (classify_sentiments_bulk parseEmptyArr ["good"] "[]").1 = JValue.arr [] ∧
    ¬ ∃ l : List JValue,
        (classify_sentiments_bulk parseEmptyArr ["good"] "[]").1 = JValue.arr l ∧
        l.length = 1 := by
  refine ⟨rfl, rfl, rfl, ?_⟩
  rintro ⟨l, hl, hlen⟩
  have h0 : (JValue.arr []) = JValue.arr l := by
    rw [← hl]
    rfl
  have : ([] : List JValue) = l := by
    injection h0
  rw [← this] at hlen
  cases hlen

/-- C2 amended: whenever the model response parses successfully as JSON,
`classify_sentiments_bulk` returns the parsed value unchanged, performing no
validation — for every parsed value, well-formed or not; consequently the
result is a JSON array of exactly N entries, each with a sentiment in
\x7bPositive, Negative, Neutral\x7d and a distinct 1-based id, the ids
covering [1,N], exactly when the parsed value itself already has that
shape. -/
theorem c2_amended_parse_success_passthrough (parse : String → Option JValue)
    (comments : List String) (respText : String) (v : JValue)
    (hne : comments ≠ [])
    (hp : parse (extract_json respText) = some v) :
    (classify_sentiments_bulk parse comments respText).1 = v ∧
    (wellFormedResp comments.length
        (classify_sentiments_bulk parse comments respText).1 = true ↔
      wellFormedResp comments.length v = true) := by
  have h1 : (classify_sentiments_bulk parse comments respText).1 = v := by
    simp [classify_sentiments_bulk, hne, hp]
  exact ⟨h1, by rw [h1]⟩

/-- Witness for the amended C2: one comment, a one-entry response that
parses successfully; the passthrough and the shape biconditional hold at
this concrete input. -/
theorem c2_amended_witness :
    (classify_sentiments_bulk parsePosOne ["good"] respPos).1 = vPos ∧
    (wellFormedResp (["good"] : List String).length
        (classify_sentiments_bulk parsePosOne ["good"] respPos).1 = true ↔
      wellFormedResp (["good"] : List String).length vPos = true) :=
  c2_amended_parse_success_passthrough parsePosOne ["good"] respPos vPos
    (by decide) (by rfl)

/-- The slider value is always within the configured bounds. -/
lemma st_slider_bounds (lo hi dflt choice : Int) (h : lo ≤ hi) :
    lo ≤ st_slider lo hi dflt choice ∧ st_slider lo hi dflt choice ≤ hi := by
  unfold st_slider
  split_ifs with h1 h2 <;> omega

/-- One Submit Feedback interaction preserves the rating invariant. -/
lemma submit_page_preserves_rating_bounds (db : List FeedbackRecord)
    (hdb : ∀ r ∈ db, 1 ≤ r.rating ∧ r.rating ≤ 5)
    (name subject : String) (ratingChoice : Int) (comments : String) :
    ∀ r ∈ (submit_page db name subject ratingChoice comments).2,
      1 ≤ r.rating ∧ r.rating ≤ 5 := by
  intro r hr
  by_cases h : subject = "" ∨ comments = ""
  · rw [show (submit_page db name subject ratingChoice comments).2 = db from by
      simp [submit_page, h]] at hr
    exact hdb r hr
  · rw [show (submit_page db name subject ratingChoice comments).2 =
        db ++ [⟨name, subject, st_slider 1 5 4 ratingChoice, comments⟩] from by
      simp [submit_page, h, insert_feedback]] at hr
    rcases List.mem_append.mp hr with hm | hm
    · exact hdb r hm
    · rw [List.mem_singleton.mp hm]
      exact st_slider_bounds 1 5 4 ratingChoice (by omega)

/-- Every sequence of Submit Feedback interactions keeps all stored ratings
within the bounds, starting from a store that satisfies them. -/
lemma run_submissions_rating_bounds :
    ∀ (inputs : List SubmitInput) (db : List FeedbackRecord),
      (∀ r ∈ db, 1 ≤ r.rating ∧ r.rating ≤ 5) →
      ∀ r ∈ run_submissions inputs db, 1 ≤ r.rating ∧ r.rating ≤ 5 := by
  intro inputs
  induction inputs with
  | nil =>
    intro db hdb r hr
    rw [show run_submissions [] db = db from rfl] at hr
    exact hdb r hr
  | cons inp rest ih =>
    intro db hdb r hr
    rw [show run_submissions (inp :: rest) db =
        run_submissions rest
          (submit_page db inp.name inp.subject inp.ratingChoice inp.comments).2 from rfl] at hr
    exact ih _ (submit_page_preserves_rating_bounds db hdb _ _ _ _) r hr

/-- C9: every record persisted through the application (whose only write
path is the Submit Feedback page, whose rating comes only from the bounded
slider `st.slider(..., 1, 5, 4)`) has an integer rating in the closed
interval [1, 5], for any sequence of user interactions starting from an
empty store. -/
theorem c9_rating_always_in_bounds (inputs : List SubmitInput)
    (r : FeedbackRecord) (hr : r ∈ run_submissions inputs []) :
    1 ≤ r.rating ∧ r.rating ≤ 5 :=
  run_submissions_rating_bounds inputs [] (by simp) r hr

/-- Witness for C9: a concrete interaction whose slider choice 9 is clamped
to 5, and the stored record's rating is within bounds. -/
theorem c9_witness :
    1 ≤ (FeedbackRecord.mk "" "Physics" 5 "great").rating ∧
    (FeedbackRecord.mk "" "Physics" 5 "great").rating ≤ 5 :=
  c9_rating_always_in_bounds [⟨"", "Physics", 9, "great"⟩]
    (FeedbackRecord.mk "" "Physics" 5 "great") (by decide)
